import Mathlib

/-!
Verification of `src/helpers/mtgtop8-scraper.py` (mtg-deck-evaluator).

The Python source is shallowly embedded below.  Pure string/HTML helpers
become Lean functions over a document model; the crawl driver
(`scrape_decklists`) becomes a fuel-indexed state-passing loop over an
explicit `World` oracle that supplies the outcome of every HTTP call, the
HTML parser, and file-write failures.  Every observable action of a run
(listing fetch, detail fetch, export fetch, file write, record emission,
CSV write) is logged in an event trace so that claims about "how many
fetches happened" are plain statements about the trace.
-/

namespace MtgScraper

/-! ## Document model

A parsed HTML document (a BeautifulSoup value) is modelled by the features
the scraper actually queries:

* its table rows in document order, each carrying its CSS classes and its
  `td` cells (`soup.select(".hover_tr")`, `soup.select(".chosen_tr, .hover_tr")`,
  `row.find_all("td")`);
* for each cell, the anchor tags (`a` elements) in its subtree in document
  order, each with its optional `href` attribute, and the stripped text of
  the elements of class `S14` in its subtree (`row.find("a", href=True)`,
  `cells[1].find("a")`, `row.find(class_="S14").get_text(strip=True)`);
* the whitespace-stripped visible text fragments of the whole document in
  document order (`soup.stripped_strings`).
-/

/-- An anchor (`a`) element: `href = none` models an absent attribute. -/
structure ATag where
  href : Option String
deriving DecidableEq, Repr

/-- A table cell (`td`): its anchors and the stripped text of its
`S14`-classed descendants, both in document order. -/
structure Cell where
  anchors : List ATag
  s14texts : List String
deriving DecidableEq, Repr

/-- A table row (`tr`): its CSS classes and its cells in order. -/
structure Row where
  classes : List String
  cells : List Cell
deriving DecidableEq, Repr

/-- A parsed document: its rows and its visible text fragments. -/
structure Doc where
  rows : List Row
  strippedStrings : List String
deriving DecidableEq, Repr

def emptyDoc : Doc := { rows := [], strippedStrings := [] }

/-! ## String helpers mirroring the Python library calls -/

/-- Python `s.startswith("/")`. -/
def startsSlash (s : String) : Bool :=
  match s.data with
  | '/' :: _ => true
  | _ => false

/-- `BASE_URL` from the source configuration block. -/
def BASE_URL : String := "https://www.mtgtop8.com"

/-- Modelled `urllib.parse.urljoin(BASE_URL, ref)`, specialised to the base
`"https://www.mtgtop8.com"` (scheme and host, empty path) and to the
reference shapes this scraper produces: a path-absolute reference (leading
`/`) resolves to origin ++ ref, and any other reference resolves against
the root path.  References carrying their own scheme and dot-segment
normalisation do not occur in this scraper and are not modelled. -/
def urljoinBase (ref : String) : String :=
  if startsSlash ref then BASE_URL ++ ref else BASE_URL ++ "/" ++ ref

/-- Split at the first occurrence of `sep` (Python `s.split(sep, 1)` when
it finds the separator): the parts before and after it. -/
def splitFirst (sep : Char) : List Char → Option (List Char × List Char)
  | [] => none
  | c :: rest =>
    if c = sep then some ([], rest)
    else (splitFirst sep rest).map fun p => (c :: p.1, p.2)

/-- Split on every occurrence of `sep` (Python `s.split(sep)`). -/
def splitC (sep : Char) : List Char → List (List Char)
  | [] => [[]]
  | c :: rest =>
    match splitC sep rest with
    | [] => [[c]]
    | h :: t => if c = sep then [] :: h :: t else (c :: h) :: t

/-- Python whitespace as stripped by `str.strip()` / ignored by `int()`. -/
def pySpace (c : Char) : Bool :=
  c = ' ' || c = '\t' || c = '\n' || c = '\r' || c = '\x0b' || c = '\x0c'

/-- Python `s.strip()`. -/
def trimC (l : List Char) : List Char :=
  ((l.dropWhile pySpace).reverse.dropWhile pySpace).reverse

/-- The query component of `urllib.parse.urlparse`: the text after the
first `?` of the part before the first `#`. -/
def queryOf (u : String) : String :=
  let noFrag :=
    match splitFirst '#' u.data with
    | some p => p.1
    | none => u.data
  match splitFirst '?' noFrag with
  | some p => ⟨p.2⟩
  | none => ""

/-- Modelled `urllib.parse.parse_qs(query)` pair list: pieces are split on
`&`, each piece on its first `=`; pieces without `=` and pairs with a blank
value are dropped (`keep_blank_values` is false).  Percent/plus decoding is
not modelled (the scraper's inputs contain neither). -/
def qsPairs (query : String) : List (String × String) :=
  (splitC '&' query.data).filterMap fun piece =>
    match splitFirst '=' piece with
    | none => none
    | some p => if p.2 = [] then none else some (⟨p.1⟩, ⟨p.2⟩)

/-- `parse_deck_id` (source lines 66-69): the first value of the `d` query
parameter of the URL, if any. -/
def parse_deck_id (deck_url : String) : Option String :=
  ((qsPairs (queryOf deck_url)).filter (fun p => p.1 = "d")).head?.map (fun p => p.2)

/-! ## Player-count regex

`PLAYERS_RE = re.compile(r"(\d+)\s+players?\b", re.IGNORECASE)` and
`PLAYERS_RE.search(text)`.  The specific pattern is embedded directly:
a maximal digit run, at least one whitespace character, `player` case
insensitively, an optional `s`, then a word boundary; `search` returns the
leftmost such match.  (`\d`, `\s` and `\w` are modelled over ASCII; the
scraper's pages contain only ASCII digits and whitespace.) -/

def isDigitC (c : Char) : Bool := c.isDigit

def isSpaceC (c : Char) : Bool :=
  c = ' ' || c = '\t' || c = '\n' || c = '\r' || c = '\x0b' || c = '\x0c'

def isWordC (c : Char) : Bool := c.isAlphanum || c = '_'

/-- Nat value of a digit run (regex group 1 fed to Python `int`). -/
def digitsVal (ds : List Char) : Nat :=
  ds.foldl (fun a c => 10 * a + (c.toNat - 48)) 0

/-- Word boundary after the matched literal: next char absent or not a
word char. -/
def noWordHead : List Char → Bool
  | [] => true
  | c :: _ => !(isWordC c)

/-- Case-insensitive `players?\b` at the head of the list. -/
def matchPlayerWord (l : List Char) : Bool :=
  match l with
  | c1 :: c2 :: c3 :: c4 :: c5 :: c6 :: rest =>
    if c1.toLower = 'p' && c2.toLower = 'l' && c3.toLower = 'a'
        && c4.toLower = 'y' && c5.toLower = 'e' && c6.toLower = 'r' then
      match rest with
      | c :: rest2 => if c.toLower = 's' then noWordHead rest2 else noWordHead rest
      | [] => true
    else false
  | _ => false

/-- Attempt the whole pattern at the current position; on success return
group 1's numeric value. -/
def matchPlayersAt (l : List Char) : Option Nat :=
  let ds := l.takeWhile isDigitC
  if ds.isEmpty then none
  else
    let r1 := l.drop ds.length
    let ws := r1.takeWhile isSpaceC
    if ws.isEmpty then none
    else if matchPlayerWord (r1.drop ws.length) then some (digitsVal ds) else none

/-- Leftmost match: try every position left to right. -/
def scanPlayers : List Char → Option Nat
  | [] => none
  | l@(_ :: rest) =>
    match matchPlayersAt l with
    | some n => some n
    | none => scanPlayers rest

/-- Python `" ".join(fragments)` as a char list. -/
def joinSpace : List String → List Char
  | [] => []
  | [s] => s.data
  | s :: rest => s.data ++ ' ' :: joinSpace rest

/-- `parse_players` (source lines 72-75): join `soup.stripped_strings` with
single spaces and return the first `PLAYERS_RE` match's numeric group. -/
def parse_players (soup : Doc) : Option Nat :=
  scanPlayers (joinSpace soup.strippedStrings)

/-! ## Placement parsing -/

/-- Python `int(raw)`: surrounding whitespace ignored, optional sign, then
a nonempty digit run (underscore digit grouping does not occur here and is
not modelled); anything else raises `ValueError`, modelled as `none`. -/
def pyInt (s : String) : Option Int :=
  let cs := trimC s.data
  match cs with
  | '+' :: rest => if !rest.isEmpty && rest.all isDigitC then some (Int.ofNat (digitsVal rest)) else none
  | '-' :: rest => if !rest.isEmpty && rest.all isDigitC then some (-(Int.ofNat (digitsVal rest))) else none
  | _ => if !cs.isEmpty && cs.all isDigitC then some (Int.ofNat (digitsVal cs)) else none

/-- `soup.select(".chosen_tr, .hover_tr")`: rows with either class, in
document order. -/
def selectPlacementRows (soup : Doc) : List Row :=
  soup.rows.filter fun r => r.classes.contains "chosen_tr" || r.classes.contains "hover_tr"

/-- `row.find("a", href=True)`: the `href` of the first anchor in the row's
subtree that carries the attribute. -/
def rowFirstHref (r : Row) : Option String :=
  (((r.cells.flatMap fun c => c.anchors).filter fun a => a.href.isSome).head?).bind fun a => a.href

/-- `row.find(class_="S14")` followed by `get_text(strip=True)`: the
stripped text of the first `S14`-classed element of the row, if any. -/
def rowS14Text (r : Row) : Option String :=
  (r.cells.flatMap fun c => c.s14texts).head?

/-- The row scan of `parse_placement_for_deck` (source lines 81-100). -/
def placementScan (d : String) : List Row → Option Int
  | [] => none
  | r :: rs =>
    match rowFirstHref r with
    | none => placementScan d rs
    | some href =>
      if parse_deck_id href ≠ some d then placementScan d rs
      else
        match rowS14Text r with
        | none => placementScan d rs
        | some raw =>
          if raw = "" then placementScan d rs
          else
            pyInt
              (match splitFirst '-' raw.data with
               | some p => ⟨trimC p.1⟩
               | none => raw)

/-- `parse_placement_for_deck` (source lines 78-100).  A falsy `deck_id`
(absent or empty) short-circuits to `none`. -/
def parse_placement_for_deck (soup : Doc) (deck_id : Option String) : Option Int :=
  match deck_id with
  | none => none
  | some d => if d = "" then none else placementScan d (selectPlacementRows soup)

/-! ## Link extraction -/

/-- `soup.select(".hover_tr")`. -/
def selectHover (soup : Doc) : List Row :=
  soup.rows.filter fun r => r.classes.contains "hover_tr"

/-- The body of the row loop of `extract_deck_links` (source lines 56-62):
`cells[1].find("a")` is the second cell's first anchor; `if link_tag and
link_tag.get("href")` requires it to exist and carry a non-empty (truthy)
`href`. -/
def extractStep (links : List String) (row : Row) : List String :=
  let cells := row.cells
  if cells.length < 2 then links
  else
    match cells[1]? with
    | none => links
    | some c =>
      match c.anchors.head? with
      | none => links
      | some a =>
        match a.href with
        | none => links
        | some h => if h = "" then links else links ++ [h]

/-- `extract_deck_links` (source lines 53-63), shaped like the source: a
`links` accumulator grown row by row over `soup.select(".hover_tr")`. -/
def extract_deck_links (soup : Doc) : List String :=
  (selectHover soup).foldl extractStep []

/-- The per-row contribution of `extract_deck_links`, as a partial
function: the second cell's first anchor's `href` when the row qualifies. -/
def rowLinkTarget (row : Row) : Option String :=
  if row.cells.length < 2 then none
  else
    (row.cells[1]?.bind fun c => c.anchors.head?).bind fun a =>
      a.href.bind fun h => if h = "" then none else some h

/-! ## Export URL resolution -/

/-- Python `text.replace("\r\n", "\n")`: left-to-right, non-overlapping. -/
def stripCRLF : List Char → List Char
  | [] => []
  | '\r' :: '\n' :: rest => '\n' :: stripCRLF rest
  | c :: rest => c :: stripCRLF rest

/-- Newline normalisation of the export body (source line 156). -/
def pyReplaceCRLF (s : String) : String := ⟨stripCRLF s.data⟩

/-- `mtgo_export_url` (source lines 103-105). -/
def mtgo_export_url (deck_link : String) : String :=
  let deck_path := if startsSlash deck_link then deck_link else "/" ++ deck_link
  urljoinBase ("/mtgo" ++ deck_path)

/-! ## The crawl driver `scrape_decklists` (source lines 108-205)

The run interacts with the outside world through HTTP calls (one shared
`requests.Session`), the HTML parser, and the filesystem.  A `World`
records the outcome of each such interaction; the driver is then a pure
state-passing loop.  The `while True` loop is indexed by explicit fuel
(the Python loop is unbounded when `max_pages is None`); running out of
fuel returns the state reached so far, exactly like stopping the process.
-/

/-- An HTTP response: `requests` status code and decoded body text. -/
structure Resp where
  status : Nat
  text : String
deriving DecidableEq, Repr

/-- The environment of one run.  `http url` is the outcome of
`session.get(url, headers=HEADERS, timeout=30)` (`Except.error` models a
raised transport exception), `parse body` is `BeautifulSoup(body,
"html.parser")`, and `writeFails path` tells whether
`Path(path).write_text` raises for that path. -/
structure World where
  http : String → Except Unit Resp
  parse : String → Doc
  writeFails : String → Bool

/-- `fetch_soup` (source lines 45-50): GET, `raise_for_status()` (raises
for 4xx/5xx), then parse the body. -/
def fetch_soup (w : World) (url : String) : Except Unit Doc :=
  match w.http url with
  | .error u => .error u
  | .ok r => if 400 ≤ r.status ∧ r.status < 600 then .error () else .ok (w.parse r.text)

/-- One Deck Record, as appended to `records` (source lines 160-172). -/
structure Rec where
  deck_id : String
  deck_url : String
  mtgo_url : String
  placement : Option Int
  players : Option Nat
  placement_of : Option String
  deck_file : String
deriving DecidableEq, Repr

/-- Build a record; `placement_of` is the formatted string only when both
parts are present. -/
def mkRec (deck_id deck_url mtgo_url : String) (placement : Option Int)
    (players : Option Nat) (deck_file : String) : Rec :=
  { deck_id := deck_id, deck_url := deck_url, mtgo_url := mtgo_url,
    placement := placement, players := players,
    placement_of :=
      match placement, players with
      | some pl, some py => some (toString pl ++ "/" ++ toString py)
      | _, _ => none,
    deck_file := deck_file }

/-- One segment of the checkpoint CSV file: one `to_csv` call's output
(`header` tells whether that call wrote the column header line). -/
structure CsvSeg where
  header : Bool
  rows : List Rec
deriving DecidableEq, Repr

/-- Observable actions of a run, in chronological order.  The three fetch
constructors are the three distinct `session.get` call sites (listing page,
deck detail page, MTGO export). -/
inductive Ev where
  | listingFetch (url : String)
  | detailFetch (url : String)
  | exportFetch (url : String)
  | fileWrite (path : String) (text : String)
  | emit (r : Rec)
  | csvWrite (append : Bool) (header : Bool) (rows : List Rec)
deriving DecidableEq, Repr

/-- Driver state: the deck files in `DATASET_DIR` (path, content; initial
entries model files left by earlier runs), the checkpoint CSV
(`none` = the file does not exist), the seen-link set, the in-memory
record buffer, and the event trace. -/
structure S where
  fs : List (String × String)
  csv : Option (List CsvSeg)
  seen : List String
  records : List Rec
  events : List Ev
deriving DecidableEq, Repr

/-- `DATASET_DIR` as a path string. -/
def DATASET_DIR : String := "../data/mtgtop8"

/-- `str(DATASET_DIR / f"deck_{deck_id}.txt")`. -/
def deckPathOf (deck_id : String) : String :=
  DATASET_DIR ++ "/deck_" ++ deck_id ++ ".txt"

/-- `deck_path.exists()` against the modelled directory. -/
def fsHas (fs : List (String × String)) (p : String) : Bool :=
  fs.any fun e => e.1 = p

/-- Append one event to the trace. -/
def addEv (s : S) (e : Ev) : S :=
  { s with events := s.events ++ [e] }

/-- The deck identifier of one item (source line 139): the `d` query
parameter of the joined deck URL, falling back to the synthetic
`page{P}_idx{N}` token with `N = len(records)`. -/
def itemDeckId (page : Nat) (s : S) (link : String) : String :=
  (parse_deck_id (urljoinBase link)).getD
    ("page" ++ toString page ++ "_idx" ++ toString s.records.length)

/-- Lines 158-172 of the source: write the export body to the deck file
and append the Deck Record. -/
def commitItem (s : S) (deck_path mtgo_text : String) (r : Rec) : S :=
  { s with
    fs := (deck_path, mtgo_text) :: s.fs,
    records := s.records ++ [r],
    events := s.events ++ [.fileWrite deck_path mtgo_text, .emit r] }

/-- The `try` block of the item loop (source lines 147-178): detail fetch
and parse, export fetch, newline normalisation, file write, record append.
Any failure leaves the state as accumulated so far and skips the item
(the `except` clause logs and continues). -/
def attemptItem (w : World) (s : S) (link deck_url deck_id deck_path : String) : S :=
  match fetch_soup w deck_url with
  | .error _ => addEv s (.detailFetch deck_url)
  | .ok html_soup =>
    match w.http (mtgo_export_url link) with
    | .error _ => addEv (addEv s (.detailFetch deck_url)) (.exportFetch (mtgo_export_url link))
    | .ok resp =>
      if w.writeFails deck_path then
        addEv (addEv s (.detailFetch deck_url)) (.exportFetch (mtgo_export_url link))
      else
        commitItem (addEv (addEv s (.detailFetch deck_url)) (.exportFetch (mtgo_export_url link)))
          deck_path (pyReplaceCRLF resp.text)
          (mkRec deck_id deck_url (mtgo_export_url link)
            (parse_placement_for_deck html_soup (some deck_id)) (parse_players html_soup)
            deck_path)

/-- The body of `for link in page_links` (source lines 132-178): skip seen
links, mark seen, derive URL/identifier, skip already-downloaded files,
otherwise attempt the item. -/
def processLink (w : World) (page : Nat) (s : S) (link : String) : S :=
  if s.seen.contains link then s
  else
    let s1 : S := { s with seen := link :: s.seen }
    let deck_url := urljoinBase link
    let deck_id := itemDeckId page s link
    let deck_path := deckPathOf deck_id
    if fsHas s.fs deck_path then s1
    else attemptItem w s1 link deck_url deck_id deck_path

/-- The per-page checkpoint (source lines 193-201): when the buffer is
nonempty, `to_csv` with `mode = 'a' if output_path.exists() and page > 1
else 'w'` and `header = not output_path.exists() or page == 1`, then clear
the buffer.  Mode `'w'` replaces the file's content, `'a'` appends. -/
def csvFlush (page : Nat) (s : S) : S :=
  if s.records.isEmpty then s
  else
    let ex := s.csv.isSome
    let append := ex && decide (1 < page)
    let header := !ex || decide (page = 1)
    let seg : CsvSeg := { header := header, rows := s.records }
    let segs :=
      match s.csv with
      | some old => if append then old ++ [seg] else [seg]
      | none => [seg]
    { s with
      csv := some segs,
      records := [],
      events := s.events ++ [.csvWrite append header s.records] }

/-- `max_pages is not None and page > max_pages` (source line 118). -/
def capExceeded (maxPages : Option Nat) (page : Nat) : Bool :=
  match maxPages with
  | some m => decide (m < page)
  | none => false

/-- Run configuration: the `max_pages` argument and the `DATE_START`
string (the latter is computed from the wall clock in the source, so it is
a parameter here; `delay_s` only sleeps and is omitted). -/
structure Cfg where
  maxPages : Option Nat
  dateStart : String

/-- `SEARCH_PARAMS` (source lines 22-32) with the date injected. -/
def searchParams (dateStart : String) : String :=
  "&event_titre=&deck_titre=&player=&format=cEDH&archetype_sel%5BVI%5D=&archetype_sel%5BLE%5D=&archetype_sel%5BMO%5D=&archetype_sel%5BPI%5D=&archetype_sel%5BEX%5D=&archetype_sel%5BHI%5D=&archetype_sel%5BST%5D=&archetype_sel%5BBL%5D=&archetype_sel%5BPAU%5D=&archetype_sel%5BEDH%5D=&archetype_sel%5BHIGH%5D=&archetype_sel%5BEDHP%5D=&archetype_sel%5BCHL%5D=&archetype_sel%5BPEA%5D=&archetype_sel%5BEDHM%5D=&archetype_sel%5BALCH%5D=&archetype_sel%5BcEDH%5D=&archetype_sel%5BEXP%5D=&archetype_sel%5BPREM%5D=&compet_check%5BP%5D=1&compet_check%5BM%5D=1&compet_check%5BC%5D=1&compet_check%5BR%5D=1&MD_check=1&cards=&date_start="
    ++ dateStart ++ "&date_end="

/-- The full search URL of one listing page (source line 121). -/
def searchUrl (cfg : Cfg) (page : Nat) : String :=
  "https://www.mtgtop8.com/search?current_page=" ++ toString page ++ searchParams cfg.dateStart

/-- The `while True` loop (source lines 117-203), fuel-indexed.  The
listing fetch sits outside any `try`, so its failure aborts the whole run
(`Except.error`).  The source also computes `has_next` from
`len(page_links) < 5` here (lines 183-191) but never reads it afterwards:
it has no effect on the state and therefore no counterpart in the model
beyond this remark. -/
def scrapeLoop (w : World) (cfg : Cfg) : Nat → Nat → S → Except Unit S
  | 0, _, s => .ok s
  | fuel + 1, page, s =>
    if capExceeded cfg.maxPages page then .ok s
    else
      match fetch_soup w (searchUrl cfg page) with
      | .error _ => .error ()
      | .ok soup =>
        if (extract_deck_links soup).isEmpty then
          .ok (addEv s (.listingFetch (searchUrl cfg page)))
        else
          scrapeLoop w cfg fuel (page + 1)
            (csvFlush page
              ((extract_deck_links soup).foldl (processLink w page)
                (addEv s (.listingFetch (searchUrl cfg page)))))

/-- Initial state of a run: pre-existing deck files and checkpoint file,
empty seen set, empty buffer, empty trace. -/
def initState (fs0 : List (String × String)) (csv0 : Option (List CsvSeg)) : S :=
  { fs := fs0, csv := csv0, seen := [], records := [], events := [] }

/-- `scrape_decklists` (source lines 108-205) as a whole-run function. -/
def scrape_decklists (w : World) (cfg : Cfg) (fs0 : List (String × String))
    (csv0 : Option (List CsvSeg)) (fuel : Nat) : Except Unit S :=
  scrapeLoop w cfg fuel 1 (initState fs0 csv0)

/-! ## Concrete fixtures

A small concrete world used to evaluate whole runs: listing page 1 carries
three deck links (fewer than the pagination threshold of 5), listing
page 2 is empty, and the three decks' detail and export pages are served
normally. -/

def l1 : String := "event?e=11&d=101&f=cEDH"

def l2 : String := "event?e=11&d=102&f=cEDH"

def l3 : String := "event?e=11&d=103&f=cEDH"

/-- A listing row: two cells, the second holding the deck link. -/
def mkListingRow (href : String) : Row :=
  { classes := ["hover_tr"], cells := [⟨[], []⟩, ⟨[⟨some href⟩], []⟩] }

def docL1 : Doc :=
  { rows := [mkListingRow l1, mkListingRow l2, mkListingRow l3], strippedStrings := [] }

def docL2 : Doc := { rows := [], strippedStrings := [] }

/-- A deck detail document: one `chosen_tr` row holding the deck's own
link and its placement cell, and a page text announcing 128 players. -/
def mkDetailDoc (href s14 : String) : Doc :=
  { rows := [{ classes := ["chosen_tr"], cells := [⟨[⟨some href⟩], [s14]⟩] }],
    strippedStrings := ["cEDH Event", "128 players"] }

def docD1 : Doc := mkDetailDoc l1 "1"

def docD2 : Doc := mkDetailDoc l2 "2"

def docD3 : Doc := mkDetailDoc l3 "3-4"

def cfg1 : Cfg := { maxPages := none, dateStart := "20/10/2024" }

/-- Same fixture crawl capped at one page. -/
def cfgCap1 : Cfg := { maxPages := some 1, dateStart := "20/10/2024" }

def w1 : World :=
  { http := fun u =>
      if u = searchUrl cfg1 1 then .ok ⟨200, "LISTING1"⟩
      else if u = searchUrl cfg1 2 then .ok ⟨200, "LISTING2"⟩
      else if u = urljoinBase l1 then .ok ⟨200, "DETAIL1"⟩
      else if u = urljoinBase l2 then .ok ⟨200, "DETAIL2"⟩
      else if u = urljoinBase l3 then .ok ⟨200, "DETAIL3"⟩
      else if u = mtgo_export_url l1 then .ok ⟨200, "1 Sol Ring\r\n1 Island\n"⟩
      else if u = mtgo_export_url l2 then .ok ⟨200, "1 Command Tower\r\n1 Forest\n"⟩
      else if u = mtgo_export_url l3 then .ok ⟨200, "1 Arcane Signet\r\n1 Swamp\n"⟩
      else .error (),
    parse := fun b =>
      if b = "LISTING1" then docL1
      else if b = "LISTING2" then docL2
      else if b = "DETAIL1" then docD1
      else if b = "DETAIL2" then docD2
      else if b = "DETAIL3" then docD3
      else emptyDoc,
    writeFails := fun _ => false }

/-- Normalised export bodies written for the three fixture decks. -/
def nt1 : String := "1 Sol Ring\n1 Island\n"

def nt2 : String := "1 Command Tower\n1 Forest\n"

def nt3 : String := "1 Arcane Signet\n1 Swamp\n"

def r101 : Rec :=
  { deck_id := "101", deck_url := urljoinBase l1, mtgo_url := mtgo_export_url l1,
    placement := some 1, players := some 128, placement_of := some "1/128",
    deck_file := deckPathOf "101" }

def r102 : Rec :=
  { deck_id := "102", deck_url := urljoinBase l2, mtgo_url := mtgo_export_url l2,
    placement := some 2, players := some 128, placement_of := some "2/128",
    deck_file := deckPathOf "102" }

def r103 : Rec :=
  { deck_id := "103", deck_url := urljoinBase l3, mtgo_url := mtgo_export_url l3,
    placement := some 3, players := some 128, placement_of := some "3/128",
    deck_file := deckPathOf "103" }

/-- The event block produced by fully processing the three fixture decks
of listing page 1 and checkpointing them. -/
def page1Events : List Ev :=
  [.listingFetch (searchUrl cfg1 1),
   .detailFetch (urljoinBase l1), .exportFetch (mtgo_export_url l1),
   .fileWrite (deckPathOf "101") nt1, .emit r101,
   .detailFetch (urljoinBase l2), .exportFetch (mtgo_export_url l2),
   .fileWrite (deckPathOf "102") nt2, .emit r102,
   .detailFetch (urljoinBase l3), .exportFetch (mtgo_export_url l3),
   .fileWrite (deckPathOf "103") nt3, .emit r103,
   .csvWrite false true [r101, r102, r103]]

/-- Final state of the uncapped fixture crawl. -/
def c1Final : S :=
  { fs := [(deckPathOf "103", nt3), (deckPathOf "102", nt2), (deckPathOf "101", nt1)],
    csv := some [⟨true, [r101, r102, r103]⟩],
    seen := [l3, l2, l1],
    records := [],
    events := page1Events ++ [.listingFetch (searchUrl cfg1 2)] }

/-- The three fixture deck files as left behind by an earlier run. -/
def fs0three : List (String × String) :=
  [(deckPathOf "101", "old101"), (deckPathOf "102", "old102"), (deckPathOf "103", "old103")]

/-- Expected final state when every link of page 1 is already on disk. -/
def c2Final : S :=
  { fs := fs0three, csv := none, seen := [l3, l2, l1], records := [],
    events := [.listingFetch (searchUrl cfgCap1 1)] }

/-- A record from a previous run, occupying the pre-existing checkpoint. -/
def rOld : Rec :=
  { deck_id := "900", deck_url := urljoinBase "event?e=9&d=900",
    mtgo_url := mtgo_export_url "event?e=9&d=900",
    placement := none, players := none, placement_of := none,
    deck_file := deckPathOf "900" }

/-- Expected final state of the capped fixture crawl that starts with a
pre-existing checkpoint file: the page-1 write replaces its content. -/
def c3Final : S :=
  { fs := [(deckPathOf "103", nt3), (deckPathOf "102", nt2), (deckPathOf "101", nt1)],
    csv := some [⟨true, [r101, r102, r103]⟩],
    seen := [l3, l2, l1],
    records := [],
    events := page1Events }

/-- Placement-parsing fixture: one listing row whose link carries deck
identifier 777 and whose placement cell reads `s14`. -/
def docPlacement (s14 : String) : Doc :=
  { rows := [{ classes := ["hover_tr"],
               cells := [⟨[⟨some "event?e=9&d=777&f=cEDH"⟩], [s14]⟩] }],
    strippedStrings := [] }

/-- Placement-parsing fixture whose only row belongs to a different deck. -/
def docPlacementOther : Doc :=
  { rows := [{ classes := ["hover_tr"],
               cells := [⟨[⟨some "event?e=9&d=888&f=cEDH"⟩], ["5"]⟩] }],
    strippedStrings := [] }

/-- Players fixtures: the phrase assembles across fragments. -/
def docPl : Doc :=
  { rows := [], strippedStrings := ["The event gathered", "128", "players from all over"] }

def docPlCase : Doc :=
  { rows := [], strippedStrings := ["Result:", "128 PLAYERS"] }

def docPlNone : Doc :=
  { rows := [], strippedStrings := ["Tournament of champions"] }

/-- Link-extraction fixture: qualifying rows a1/g2 mixed with rows lacking
a second cell, lacking an anchor, an anchor without (or with an empty)
href, and a row without the listing class. -/
def docMixed : Doc :=
  { rows :=
      [{ classes := ["hover_tr"], cells := [⟨[], []⟩, ⟨[⟨some "a1"⟩], []⟩] },
       { classes := ["hover_tr"], cells := [⟨[⟨some "only"⟩], []⟩] },
       { classes := ["hover_tr"], cells := [⟨[], []⟩, ⟨[], []⟩] },
       { classes := ["other"], cells := [⟨[], []⟩, ⟨[⟨some "d2"⟩], []⟩] },
       { classes := ["hover_tr"], cells := [⟨[], []⟩, ⟨[⟨none⟩, ⟨some "zz"⟩], []⟩] },
       { classes := ["hover_tr"], cells := [⟨[], []⟩, ⟨[⟨some ""⟩], []⟩] },
       { classes := ["hover_tr"], cells := [⟨[], []⟩, ⟨[⟨some "g2"⟩], []⟩, ⟨[], []⟩] }],
    strippedStrings := [] }

/-! ## Views over the event trace -/

def isDetailFetch : Ev → Bool
  | .detailFetch _ => true
  | _ => false

def isExportFetch : Ev → Bool
  | .exportFetch _ => true
  | _ => false

def isFileWrite : Ev → Bool
  | .fileWrite _ _ => true
  | _ => false

/-- The `deck_file` paths of the records emitted during a run, in order. -/
def emittedPaths (evs : List Ev) : List String :=
  evs.filterMap fun e =>
    match e with
    | .emit r => some r.deck_file
    | _ => none

/-- One `to_csv` call as recorded in the trace. -/
structure CsvCall where
  append : Bool
  header : Bool
  rows : List Rec
deriving DecidableEq, Repr

def csvCalls (evs : List Ev) : List CsvCall :=
  evs.filterMap fun e =>
    match e with
    | .csvWrite a h rows => some ⟨a, h, rows⟩
    | _ => none

/-- The checkpoint-write discipline claimed by the spec: the first call
writes the header in overwrite mode, every later call appends without a
header. -/
def goodCsvCalls : List CsvCall → Bool
  | [] => true
  | hd :: tl => !hd.append && hd.header && tl.all fun v => v.append && !v.header

/-- The checkpoint-file content determined by a call sequence obeying
`goodCsvCalls`: every call's row block, in order. -/
def csvOfCalls (ws : List CsvCall) : Option (List CsvSeg) :=
  if ws.isEmpty then none else some (ws.map fun v => ⟨v.header, v.rows⟩)

/-! ## Invariants of the crawl -/

/-- Every emitted record's path is present in the deck-file directory. -/
def pathsCovered (s : S) : Prop :=
  ∀ p, p ∈ emittedPaths s.events → fsHas s.fs p = true

/-- At most one emission per deck-file path, and all emitted files exist. -/
def dedupInv (s : S) : Prop :=
  (emittedPaths s.events).Nodup ∧ pathsCovered s

/-- Checkpoint invariant holding throughout a page (the record buffer is
unconstrained mid-page). -/
def csvInvMid (page : Nat) (s : S) : Prop :=
  1 ≤ page ∧ goodCsvCalls (csvCalls s.events) = true ∧
    s.csv = csvOfCalls (csvCalls s.events) ∧ (s.csv.isSome → 2 ≤ page)

/-- Checkpoint invariant at the top of the page loop. -/
def csvInvTop (page : Nat) (s : S) : Prop :=
  csvInvMid page s ∧ s.records = []

/-! ## Worlds for witnesses -/

/-- A world whose every HTTP call raises. -/
def wDown : World :=
  { http := fun _ => Except.error (), parse := fun _ => emptyDoc, writeFails := fun _ => false }

/-- A non-success export response. -/
def resp503 : Resp := { status := 503, text := "Service\r\nUnavailable" }

/-- A world serving deck 101's detail page normally but answering the
export fetch with status 503. -/
def w500 : World :=
  { http := fun u =>
      if u = urljoinBase l1 then .ok ⟨200, "DETAIL1"⟩
      else if u = mtgo_export_url l1 then .ok resp503
      else .error (),
    parse := fun b => if b = "DETAIL1" then docD1 else emptyDoc,
    writeFails := fun _ => false }

/-- Expected item result under `w500`: the 503 body is normalised, written
to disk, and a record is emitted regardless of the status code. -/
def c5Final : S :=
  { fs := [(deckPathOf "101", "Service\nUnavailable")],
    csv := none, seen := [l1], records := [r101],
    events := [.detailFetch (urljoinBase l1), .exportFetch (mtgo_export_url l1),
               .fileWrite (deckPathOf "101") "Service\nUnavailable", .emit r101] }

/-! ## Helper lemmas -/

set_option maxRecDepth 400000

theorem startsSlash_mtgo (s : String) : startsSlash ("/mtgo" ++ s) = true := rfl

theorem foldl_preserves {α σ : Type _} {f : σ → α → σ} {P : σ → Prop}
    (hf : ∀ s a, P s → P (f s a)) : ∀ (l : List α) (s : σ), P s → P (l.foldl f s)
  | [], _, hs => hs
  | a :: l, s, hs => foldl_preserves hf l (f s a) (hf s a hs)

theorem emittedPaths_append (a b : List Ev) :
    emittedPaths (a ++ b) = emittedPaths a ++ emittedPaths b := by
  simp [emittedPaths]

theorem csvCalls_append (a b : List Ev) :
    csvCalls (a ++ b) = csvCalls a ++ csvCalls b := by
  simp [csvCalls]

@[simp]
theorem mkRec_deck_file (a b c : String) (d : Option Int) (e : Option Nat) (f : String) :
    (mkRec a b c d e f).deck_file = f := rfl

@[simp]
theorem fsHas_cons (x : String × String) (fs : List (String × String)) (p : String) :
    fsHas (x :: fs) p = (x.1 = p || fsHas fs p) := by
  simp [fsHas]

/-- Appending a non-emitting event preserves the deduplication invariant. -/
theorem dedupInv_addEv (s : S) (e : Ev) (he : emittedPaths [e] = []) (h : dedupInv s) :
    dedupInv (addEv s e) := by
  have h1 : emittedPaths (addEv s e).events = emittedPaths s.events := by
    simp [addEv, emittedPaths_append, he]
  exact ⟨by rw [h1]; exact h.1, fun p hp => by rw [h1] at hp; exact h.2 p hp⟩

theorem emittedPaths_two (es : List Ev) (dp t : String) (r : Rec) :
    emittedPaths (es ++ [Ev.fileWrite dp t, Ev.emit r]) = emittedPaths es ++ [r.deck_file] := by
  simp [emittedPaths]

theorem dedupInv_commitItem (s : S) (dp t : String) (r : Rec) (hr : r.deck_file = dp)
    (h : dedupInv s) (habs : fsHas s.fs dp = false) : dedupInv (commitItem s dp t r) := by
  have hE : emittedPaths (commitItem s dp t r).events = emittedPaths s.events ++ [dp] := by
    show emittedPaths (s.events ++ [Ev.fileWrite dp t, Ev.emit r]) = _
    rw [emittedPaths_two, hr]
  have hnotin : dp ∉ emittedPaths s.events := by
    intro hmem
    have hcov := h.2 dp hmem
    rw [habs] at hcov
    exact Bool.false_ne_true hcov
  constructor
  · rw [show (emittedPaths (commitItem s dp t r).events).Nodup =
        (emittedPaths s.events ++ [dp]).Nodup from by rw [hE]]
    rw [List.nodup_append]
    refine ⟨h.1, by simp, ?_⟩
    intro p hp hq
    rw [List.mem_singleton] at hq
    rw [hq] at hp
    exact hnotin hp
  · intro p hp
    rw [hE] at hp
    show fsHas ((dp, t) :: s.fs) p = true
    rw [fsHas_cons]
    rcases List.mem_append.mp hp with hp | hp
    · rw [h.2 p hp]
      simp
    · rw [List.mem_singleton] at hp
      rw [hp]
      simp

theorem dedupInv_attemptItem (w : World) (s : S) (link du id dp : String)
    (h : dedupInv s) (habs : fsHas s.fs dp = false) :
    dedupInv (attemptItem w s link du id dp) := by
  have hsd : dedupInv (addEv s (Ev.detailFetch du)) :=
    dedupInv_addEv s (Ev.detailFetch du) (by simp [emittedPaths]) h
  have hse : dedupInv (addEv (addEv s (Ev.detailFetch du))
      (Ev.exportFetch (mtgo_export_url link))) :=
    dedupInv_addEv (addEv s (Ev.detailFetch du)) (Ev.exportFetch (mtgo_export_url link))
      (by simp [emittedPaths]) hsd
  unfold attemptItem
  cases hf : fetch_soup w du with
  | error e => exact hsd
  | ok soup =>
    cases hh : w.http (mtgo_export_url link) with
    | error e => exact hse
    | ok resp =>
      dsimp only
      by_cases hw : w.writeFails dp
      · rw [if_pos hw]
        exact hse
      · rw [if_neg hw]
        exact dedupInv_commitItem _ dp _ _ (mkRec_deck_file _ _ _ _ _ _) hse habs

theorem dedupInv_processLink (w : World) (page : Nat) (s : S) (link : String)
    (h : dedupInv s) : dedupInv (processLink w page s link) := by
  unfold processLink
  by_cases h1 : s.seen.contains link
  · simp only [h1, if_true]; exact h
  · simp only [h1, if_false, Bool.false_eq_true]
    by_cases h2 : fsHas s.fs (deckPathOf (itemDeckId page s link))
    · simp only [h2, if_true]; exact h
    · simp only [h2, if_false, Bool.false_eq_true]
      exact dedupInv_attemptItem w _ link _ _ _ h (by simpa using h2)

theorem dedupInv_csvFlush (page : Nat) (s : S) (h : dedupInv s) :
    dedupInv (csvFlush page s) := by
  unfold csvFlush
  by_cases hr : s.records.isEmpty
  · simp only [hr, if_true]; exact h
  · simp only [hr, if_false, Bool.false_eq_true]
    have h1 : emittedPaths (s.events ++ [Ev.csvWrite (s.csv.isSome && decide (1 < page))
        (!s.csv.isSome || decide (page = 1)) s.records]) = emittedPaths s.events := by
      simp [emittedPaths_append, emittedPaths]
    exact ⟨by rw [h1]; exact h.1, fun p hp => by rw [h1] at hp; exact h.2 p hp⟩

theorem dedupInv_scrapeLoop (w : World) (cfg : Cfg) :
    ∀ (fuel page : Nat) (s s' : S), dedupInv s →
      scrapeLoop w cfg fuel page s = Except.ok s' → dedupInv s'
  | 0, _, s, s', h, heq => by
    injection heq with h'
    exact h' ▸ h
  | fuel + 1, page, s, s', h, heq => by
    rw [scrapeLoop] at heq
    by_cases hcap : capExceeded cfg.maxPages page
    · rw [if_pos hcap] at heq
      injection heq with h'
      exact h' ▸ h
    · rw [if_neg hcap] at heq
      cases hf : fetch_soup w (searchUrl cfg page) with
      | error e =>
        rw [hf] at heq
        exact absurd heq (by simp)
      | ok soup =>
        rw [hf] at heq
        dsimp only at heq
        by_cases hemp : (extract_deck_links soup).isEmpty
        · rw [if_pos hemp] at heq
          injection heq with h'
          exact h' ▸ dedupInv_addEv s _ (by simp [emittedPaths]) h
        · rw [if_neg hemp] at heq
          exact dedupInv_scrapeLoop w cfg fuel (page + 1) _ s'
            (dedupInv_csvFlush page _
              (foldl_preserves (fun t a ht => dedupInv_processLink w page t a ht) _ _
                (dedupInv_addEv s _ (by simp [emittedPaths]) h)))
            heq

/-! ### Checkpoint-write lemmas -/

theorem goodCsvCalls_cons (hd : CsvCall) (tl : List CsvCall) :
    goodCsvCalls (hd :: tl) =
      (!hd.append && hd.header && tl.all fun v => v.append && !v.header) := rfl

theorem csv_addEv (s : S) (e : Ev) (he : csvCalls [e] = []) :
    (addEv s e).csv = s.csv ∧ csvCalls (addEv s e).events = csvCalls s.events :=
  ⟨rfl, by simp [addEv, csvCalls_append, he]⟩

theorem csv_attemptItem (w : World) (s : S) (link du id dp : String) :
    (attemptItem w s link du id dp).csv = s.csv ∧
    csvCalls (attemptItem w s link du id dp).events = csvCalls s.events := by
  unfold attemptItem
  cases hf : fetch_soup w du with
  | error e => exact ⟨rfl, by simp [addEv, csvCalls_append, csvCalls]⟩
  | ok soup =>
    cases hh : w.http (mtgo_export_url link) with
    | error e => exact ⟨rfl, by simp [addEv, csvCalls_append, csvCalls]⟩
    | ok resp =>
      dsimp only
      by_cases hw : w.writeFails dp
      · rw [if_pos hw]
        exact ⟨rfl, by simp [addEv, csvCalls_append, csvCalls]⟩
      · rw [if_neg hw]
        exact ⟨rfl, by simp [commitItem, addEv, csvCalls_append, csvCalls]⟩

theorem csv_processLink (w : World) (page : Nat) (s : S) (link : String) :
    (processLink w page s link).csv = s.csv ∧
    csvCalls (processLink w page s link).events = csvCalls s.events := by
  unfold processLink
  by_cases h1 : s.seen.contains link
  · rw [if_pos h1]
    exact ⟨rfl, rfl⟩
  · rw [if_neg h1]
    dsimp only
    by_cases h2 : fsHas s.fs (deckPathOf (itemDeckId page s link))
    · rw [if_pos h2]
      exact ⟨rfl, rfl⟩
    · rw [if_neg h2]
      exact csv_attemptItem w _ link _ _ _

theorem csvInvMid_processLink (w : World) (page : Nat) (s : S) (link : String)
    (h : csvInvMid page s) : csvInvMid page (processLink w page s link) := by
  obtain ⟨hc1, hc2⟩ := csv_processLink w page s link
  exact ⟨h.1, by rw [hc2]; exact h.2.1, by rw [hc1, hc2]; exact h.2.2.1,
    by rw [hc1]; exact h.2.2.2⟩

theorem csvOfCalls_eq_none (ws : List CsvCall) (h : csvOfCalls ws = none) : ws = [] := by
  cases ws with
  | nil => rfl
  | cons c cs => exact absurd h (by simp [csvOfCalls])

theorem csvInvTop_csvFlush (page : Nat) (s : S) (h : csvInvMid page s) :
    csvInvTop (page + 1) (csvFlush page s) := by
  obtain ⟨h1, hg, hc, hp⟩ := h
  unfold csvFlush
  by_cases hr : s.records.isEmpty
  · rw [if_pos hr]
    refine ⟨⟨by omega, hg, hc, fun hx => by have := hp hx; omega⟩, ?_⟩
    exact List.isEmpty_iff.mp hr
  · rw [if_neg hr]
    dsimp only
    cases hcs : s.csv with
    | none =>
      have hcalls : csvCalls s.events = [] := csvOfCalls_eq_none _ (by rw [← hc, hcs])
      refine ⟨⟨by omega, ?_, ?_, fun _ => by omega⟩, rfl⟩
      · show goodCsvCalls (csvCalls (s.events ++ [Ev.csvWrite _ _ s.records])) = true
        rw [csvCalls_append, hcalls]
        simp [csvCalls, goodCsvCalls, hcs]
      · show some _ = csvOfCalls (csvCalls (s.events ++ [Ev.csvWrite _ _ s.records]))
        rw [csvCalls_append, hcalls]
        simp [csvCalls, csvOfCalls, hcs]
    | some old =>
      have h2p : 2 ≤ page := hp (by rw [hcs]; rfl)
      have hne : ¬(csvCalls s.events).isEmpty = true := by
        intro hx
        rw [List.isEmpty_iff.mp hx] at hc
        rw [hcs] at hc
        exact absurd hc (by simp [csvOfCalls])
      have hold : old = (csvCalls s.events).map (fun v => CsvSeg.mk v.header v.rows) := by
        have hx := hc
        rw [hcs] at hx
        unfold csvOfCalls at hx
        rw [if_neg hne] at hx
        exact Option.some.inj hx
      have hlt : decide (1 < page) = true := decide_eq_true (by omega)
      have hne1 : decide (page = 1) = false := decide_eq_false (by omega)
      obtain ⟨c, cs, hccs⟩ : ∃ c cs, csvCalls s.events = c :: cs := by
        cases hx : csvCalls s.events with
        | nil => rw [hx] at hne; exact absurd rfl hne
        | cons c cs => exact ⟨c, cs, rfl⟩
      have hsingle : ∀ rows : List Rec,
          csvCalls [Ev.csvWrite ((some old).isSome && decide (1 < page))
            (!(some old).isSome || decide (page = 1)) rows] = [CsvCall.mk true false rows] := by
        intro rows
        simp [csvCalls, hlt, hne1]
      refine ⟨⟨by omega, ?_, ?_, fun _ => by omega⟩, rfl⟩
      · show goodCsvCalls (csvCalls (s.events ++ [Ev.csvWrite _ _ s.records])) = true
        rw [csvCalls_append, hccs, hsingle, List.cons_append, goodCsvCalls_cons]
        rw [hccs, goodCsvCalls_cons] at hg
        rw [Bool.and_eq_true, Bool.and_eq_true] at hg
        rw [Bool.and_eq_true, Bool.and_eq_true, List.all_append]
        refine ⟨⟨hg.1.1, hg.1.2⟩, ?_⟩
        rw [Bool.and_eq_true]
        exact ⟨hg.2, by simp⟩
      · show some _ = csvOfCalls (csvCalls (s.events ++ [Ev.csvWrite _ _ s.records]))
        rw [csvCalls_append, hccs, hsingle]
        unfold csvOfCalls
        rw [if_neg (by simp)]
        rw [List.map_append]
        simp [hne1, hold, hccs]
        omega

theorem csvInv_scrapeLoop (w : World) (cfg : Cfg) :
    ∀ (fuel page : Nat) (s s' : S), csvInvTop page s →
      scrapeLoop w cfg fuel page s = Except.ok s' →
      s'.records = [] ∧ goodCsvCalls (csvCalls s'.events) = true ∧
        s'.csv = csvOfCalls (csvCalls s'.events)
  | 0, _, s, s', h, heq => by
    injection heq with h'
    subst h'
    exact ⟨h.2, h.1.2.1, h.1.2.2.1⟩
  | fuel + 1, page, s, s', h, heq => by
    rw [scrapeLoop] at heq
    by_cases hcap : capExceeded cfg.maxPages page
    · rw [if_pos hcap] at heq
      injection heq with h'
      subst h'
      exact ⟨h.2, h.1.2.1, h.1.2.2.1⟩
    · rw [if_neg hcap] at heq
      cases hf : fetch_soup w (searchUrl cfg page) with
      | error e =>
        rw [hf] at heq
        exact absurd heq (by simp)
      | ok soup =>
        rw [hf] at heq
        dsimp only at heq
        by_cases hemp : (extract_deck_links soup).isEmpty
        · rw [if_pos hemp] at heq
          injection heq with h'
          subst h'
          obtain ⟨ha1, ha2⟩ := csv_addEv s (Ev.listingFetch (searchUrl cfg page))
            (by simp [csvCalls])
          refine ⟨h.2, ?_, ?_⟩
          · rw [ha2]
            exact h.1.2.1
          · rw [ha1, ha2]
            exact h.1.2.2.1
        · rw [if_neg hemp] at heq
          have hmid0 : csvInvMid page (addEv s (Ev.listingFetch (searchUrl cfg page))) := by
            obtain ⟨ha1, ha2⟩ := csv_addEv s (Ev.listingFetch (searchUrl cfg page))
              (by simp [csvCalls])
            exact ⟨h.1.1, by rw [ha2]; exact h.1.2.1, by rw [ha1, ha2]; exact h.1.2.2.1,
              by rw [ha1]; exact h.1.2.2.2⟩
          have hmid : csvInvMid page ((extract_deck_links soup).foldl (processLink w page)
              (addEv s (Ev.listingFetch (searchUrl cfg page)))) :=
            foldl_preserves (fun t a ht => csvInvMid_processLink w page t a ht) _ _ hmid0
          exact csvInv_scrapeLoop w cfg fuel (page + 1) _ s'
            (csvInvTop_csvFlush page _ hmid) heq

/-! ### Run-abort and item-skip lemmas -/

theorem scrapeLoop_ok (w : World) (cfg : Cfg)
    (hok : ∀ p : Nat, fetch_soup w (searchUrl cfg p) ≠ Except.error ()) :
    ∀ (fuel page : Nat) (s : S), ∃ s', scrapeLoop w cfg fuel page s = Except.ok s'
  | 0, _, s => ⟨s, rfl⟩
  | fuel + 1, page, s => by
    rw [scrapeLoop]
    by_cases hcap : capExceeded cfg.maxPages page
    · rw [if_pos hcap]
      exact ⟨s, rfl⟩
    · rw [if_neg hcap]
      cases hf : fetch_soup w (searchUrl cfg page) with
      | error e =>
        cases e
        exact absurd hf (hok page)
      | ok soup =>
        dsimp only
        by_cases hemp : (extract_deck_links soup).isEmpty
        · rw [if_pos hemp]
          exact ⟨_, rfl⟩
        · rw [if_neg hemp]
          exact scrapeLoop_ok w cfg hok fuel (page + 1) _

theorem processLink_fail (w : World) (page : Nat) (s : S) (link : String)
    (hfail : fetch_soup w (urljoinBase link) = Except.error () ∨
      w.http (mtgo_export_url link) = Except.error () ∨
      w.writeFails (deckPathOf (itemDeckId page s link)) = true) :
    (processLink w page s link).records = s.records ∧
    (processLink w page s link).fs = s.fs ∧
    emittedPaths (processLink w page s link).events = emittedPaths s.events := by
  unfold processLink
  by_cases h1 : s.seen.contains link
  · rw [if_pos h1]
    exact ⟨rfl, rfl, rfl⟩
  · rw [if_neg h1]
    dsimp only
    by_cases h2 : fsHas s.fs (deckPathOf (itemDeckId page s link))
    · rw [if_pos h2]
      exact ⟨rfl, rfl, rfl⟩
    · rw [if_neg h2]
      unfold attemptItem
      cases hf : fetch_soup w (urljoinBase link) with
      | error e => exact ⟨rfl, rfl, by simp [addEv, emittedPaths_append, emittedPaths]⟩
      | ok soup =>
        cases hh : w.http (mtgo_export_url link) with
        | error e => exact ⟨rfl, rfl, by simp [addEv, emittedPaths_append, emittedPaths]⟩
        | ok resp =>
          dsimp only
          have hw : w.writeFails (deckPathOf (itemDeckId page s link)) = true := by
            rcases hfail with hx | hx | hx
            · rw [hf] at hx
              exact absurd hx (by simp)
            · rw [hh] at hx
              exact absurd hx (by simp)
            · exact hx
          rw [if_pos hw]
          exact ⟨rfl, rfl, by simp [addEv, emittedPaths_append, emittedPaths]⟩

/-! ### Link-extraction lemmas -/

theorem extractStep_eq (links : List String) (row : Row) :
    extractStep links row = links ++ (rowLinkTarget row).toList := by
  unfold extractStep rowLinkTarget
  by_cases hl : row.cells.length < 2
  · rw [if_pos hl, if_pos hl]
    simp
  · rw [if_neg hl, if_neg hl]
    cases h1 : row.cells[1]? with
    | none => simp [h1]
    | some c =>
      cases h2 : c.anchors.head? with
      | none => simp [h1, h2]
      | some a =>
        cases h3 : a.href with
        | none => simp [h1, h2, h3]
        | some hv =>
          by_cases h4 : hv = "" <;> simp [h1, h2, h3, h4]

theorem foldl_extractStep (rows : List Row) :
    ∀ acc : List String, rows.foldl extractStep acc = acc ++ rows.filterMap rowLinkTarget := by
  induction rows with
  | nil =>
    intro acc
    simp
  | cons r rs ih =>
    intro acc
    rw [List.foldl_cons, extractStep_eq, ih, List.filterMap_cons]
    cases h : rowLinkTarget r <;> simp

/-! ## The claims -/

/-- C1: the spec claims that when a listing page yields fewer links than
the threshold of 5, the driver treats it as the last page and stops after
processing it, fetching no further listing page.  The code computes this
very heuristic into `has_next` (source lines 183-191) but never reads it:
the loop only stops on an empty page or the page cap.  Evaluating the
3-link scenario: the run does fetch 3 detail pages, 3 export pages, write
3 files and checkpoint a header plus 3 rows — but it then fetches listing
page 2, contradicting the claimed termination.  (Page 2 of the fixture is
empty, which is what finally stops the run.) -/
theorem claim_C1_pagination_heuristic_unused :
    scrape_decklists w1 cfg1 [] none 3 = Except.ok c1Final ∧
    (c1Final.events.filter isDetailFetch).length = 3 ∧
    (c1Final.events.filter isExportFetch).length = 3 ∧
    (c1Final.events.filter isFileWrite).length = 3 ∧
    csvCalls c1Final.events = [⟨false, true, [r101, r102, r103]⟩] ∧
    Ev.listingFetch (searchUrl cfg1 2) ∈ c1Final.events := by
  refine ⟨rfl, ?_, ?_, ?_, ?_, ?_⟩ <;> decide

/-- C2: (a) across every run, at most one Deck Record is emitted per
distinct `deck_id`-derived file path; (b) an item whose export file
already exists is skipped entirely — the only state change is the
seen-set, so no detail fetch, no export fetch, no file write and no
record; (c) concretely, re-running over a page whose three decks are all
on disk fetches only the listing page and emits nothing. -/
theorem claim_C2_dedup_and_skip :
    (∀ (w : World) (cfg : Cfg) (fs0 : List (String × String)) (csv0 : Option (List CsvSeg))
        (fuel : Nat) (s' : S),
        scrape_decklists w cfg fs0 csv0 fuel = Except.ok s' →
        (emittedPaths s'.events).Nodup) ∧
    (∀ (w : World) (page : Nat) (s : S) (link : String),
        s.seen.contains link = false →
        fsHas s.fs (deckPathOf (itemDeckId page s link)) = true →
        processLink w page s link = { s with seen := link :: s.seen }) ∧
    (scrape_decklists w1 cfgCap1 fs0three none 2 = Except.ok c2Final ∧
      (c2Final.events.filter isDetailFetch).length = 0 ∧
      (c2Final.events.filter isExportFetch).length = 0 ∧
      emittedPaths c2Final.events = [] ∧
      c2Final.events = [Ev.listingFetch (searchUrl cfgCap1 1)]) := by
  refine ⟨?_, ?_, rfl, by decide, by decide, by decide, by decide⟩
  · intro w cfg fs0 csv0 fuel s' heq
    have h0 : dedupInv (initState fs0 csv0) := by
      constructor
      · show (emittedPaths []).Nodup
        simp [emittedPaths]
      · intro p hp
        simp [initState, emittedPaths] at hp
    exact (dedupInv_scrapeLoop w cfg fuel 1 _ s' h0 heq).1
  · intro w page s link h1 h2
    unfold processLink
    rw [if_neg (fun hx => Bool.false_ne_true (h1.symm.trans hx))]
    dsimp only
    rw [if_pos h2]

theorem claim_C2_witness :
    processLink w1 1 (initState fs0three none) l1 =
      { initState fs0three none with seen := [l1] } :=
  claim_C2_dedup_and_skip.2.1 w1 1 (initState fs0three none) l1 rfl rfl

/-- C3 counterexample: the claim says checkpoint writes append and emit
the header only on the very first write.  Run the fixture crawl with a
checkpoint file that already exists (it holds `rOld` from a previous run):
the page-1 write uses overwrite mode (`page > 1` is false, so mode `'w'`),
emits a header although the file already had one, and destroys the
pre-existing content — `rOld` is gone from the final file. -/
theorem claim_C3_counterexample :
    scrape_decklists w1 cfgCap1 [] (some [⟨true, [rOld]⟩]) 2 = Except.ok c3Final ∧
    csvCalls c3Final.events = [⟨false, true, [r101, r102, r103]⟩] ∧
    c3Final.csv = some [⟨true, [r101, r102, r103]⟩] ∧
    rOld ∉ [r101, r102, r103] := by
  refine ⟨rfl, by decide, by decide, by decide⟩

/-- C3 as amended: for every run that starts with no checkpoint file, the
record buffer is cleared after every page, the first checkpoint write is
an overwrite-mode write with the header, every subsequent write is an
append-mode write without the header, and the final file content is
exactly the concatenation of all written row blocks (nothing is lost). -/
theorem claim_C3_checkpoint_discipline :
    ∀ (w : World) (cfg : Cfg) (fs0 : List (String × String)) (fuel : Nat) (s' : S),
      scrape_decklists w cfg fs0 none fuel = Except.ok s' →
      s'.records = [] ∧ goodCsvCalls (csvCalls s'.events) = true ∧
        s'.csv = csvOfCalls (csvCalls s'.events) := by
  intro w cfg fs0 fuel s' heq
  refine csvInv_scrapeLoop w cfg fuel 1 (initState fs0 none) s'
    ⟨⟨le_refl 1, rfl, rfl, ?_⟩, rfl⟩ heq
  intro hx
  exact absurd hx (by simp [initState])

theorem claim_C3_witness :
    c1Final.records = [] ∧ goodCsvCalls (csvCalls c1Final.events) = true ∧
      c1Final.csv = csvOfCalls (csvCalls c1Final.events) :=
  claim_C3_checkpoint_discipline w1 cfg1 [] 3 c1Final rfl

/-- C4: (a) an exception while fetching a listing page is not caught and
aborts the whole crawl; (b) when every listing fetch succeeds the run
always completes normally, whatever happens to individual items — an
item's failure never aborts the crawl; (c) an exception in the per-item
sequence (detail fetch, export fetch, or file write) leaves the records,
the deck-file directory and the emitted-record trace unchanged: the item
is skipped with no partial record, and the loop goes on with the next
link. -/
theorem claim_C4_error_propagation :
    (∀ (w : World) (cfg : Cfg) (fuel page : Nat) (s : S),
        capExceeded cfg.maxPages page = false →
        fetch_soup w (searchUrl cfg page) = Except.error () →
        scrapeLoop w cfg (fuel + 1) page s = Except.error ()) ∧
    (∀ (w : World) (cfg : Cfg) (fuel page : Nat) (s : S),
        (∀ p : Nat, fetch_soup w (searchUrl cfg p) ≠ Except.error ()) →
        ∃ s' : S, scrapeLoop w cfg fuel page s = Except.ok s') ∧
    (∀ (w : World) (page : Nat) (s : S) (link : String),
        (fetch_soup w (urljoinBase link) = Except.error () ∨
          w.http (mtgo_export_url link) = Except.error () ∨
          w.writeFails (deckPathOf (itemDeckId page s link)) = true) →
        (processLink w page s link).records = s.records ∧
        (processLink w page s link).fs = s.fs ∧
        emittedPaths (processLink w page s link).events = emittedPaths s.events) := by
  refine ⟨?_, ?_, ?_⟩
  · intro w cfg fuel page s hcap hf
    rw [scrapeLoop, if_neg (by simp [hcap]), hf]
  · intro w cfg fuel page s hok
    exact scrapeLoop_ok w cfg hok fuel page s
  · intro w page s link hfail
    exact processLink_fail w page s link hfail

theorem claim_C4_witness :
    scrapeLoop wDown cfg1 1 1 (initState [] none) = Except.error () :=
  claim_C4_error_propagation.1 wDown cfg1 0 1 (initState [] none) rfl rfl

/-- C5: `fetch_soup` (used for listing and detail pages) raises on any
4xx/5xx status, but the export fetch never inspects the status: whenever
the detail fetch succeeds and the export GET returns a response — with any
status whatsoever — the body is newline-normalised, written to the deck
file, and a record is appended. -/
theorem claim_C5_export_status_unchecked :
    (∀ (w : World) (url : String) (resp : Resp),
        w.http url = Except.ok resp → 400 ≤ resp.status → resp.status < 600 →
        fetch_soup w url = Except.error ()) ∧
    (∀ (w : World) (page : Nat) (s : S) (link : String) (soup : Doc) (resp : Resp),
        s.seen.contains link = false →
        fsHas s.fs (deckPathOf (itemDeckId page s link)) = false →
        fetch_soup w (urljoinBase link) = Except.ok soup →
        w.http (mtgo_export_url link) = Except.ok resp →
        w.writeFails (deckPathOf (itemDeckId page s link)) = false →
        (processLink w page s link).fs =
            (deckPathOf (itemDeckId page s link), pyReplaceCRLF resp.text) :: s.fs ∧
          (processLink w page s link).records = s.records ++
            [mkRec (itemDeckId page s link) (urljoinBase link) (mtgo_export_url link)
              (parse_placement_for_deck soup (some (itemDeckId page s link)))
              (parse_players soup) (deckPathOf (itemDeckId page s link))]) := by
  constructor
  · intro w url resp hh h4 h6
    unfold fetch_soup
    rw [hh]
    dsimp only
    rw [if_pos ⟨h4, h6⟩]
  · intro w page s link soup resp h1 h2 h3 h4 h5
    unfold processLink
    rw [if_neg (fun hx => Bool.false_ne_true (h1.symm.trans hx))]
    dsimp only
    rw [if_neg (fun hx => Bool.false_ne_true (h2.symm.trans hx))]
    unfold attemptItem
    rw [h3]
    dsimp only
    rw [h4]
    dsimp only
    rw [if_neg (by simp [h5])]
    exact ⟨rfl, rfl⟩

theorem claim_C5_witness :
    (processLink w500 1 (initState [] none) l1).fs =
        [(deckPathOf "101", "Service\nUnavailable")] ∧
      (processLink w500 1 (initState [] none) l1).records = [r101] := by
  have h := claim_C5_export_status_unchecked.2 w500 1 (initState [] none) l1 docD1 resp503
    rfl rfl rfl rfl rfl
  exact ⟨h.1.trans (by rfl), h.2.trans (by rfl)⟩

/-- C6: placement parsing on a matching row: a placement cell reading
`3-4` yields 3 (truncation before the first dash), an empty cell yields
none, a non-numeric cell yields none, and a document whose rows all carry
other deck identifiers yields none. -/
theorem claim_C6_placement_parsing :
    parse_placement_for_deck (docPlacement "3-4") (some "777") = some 3 ∧
    parse_placement_for_deck (docPlacement "") (some "777") = none ∧
    parse_placement_for_deck (docPlacement "abc") (some "777") = none ∧
    parse_placement_for_deck docPlacementOther (some "777") = none := by
  refine ⟨?_, ?_, ?_, ?_⟩ <;> decide

/-- C7: player-count parsing joins all visible fragments with single
spaces and applies the case-insensitive `<digits> player(s)` pattern: a
document whose text contains `128 players` (here assembled across
fragments) yields 128, `128 PLAYERS` also yields 128, and a document with
no such phrase yields none. -/
theorem claim_C7_players_parsing :
    parse_players docPl = some 128 ∧
    parse_players docPlCase = some 128 ∧
    parse_players docPlNone = none := by
  refine ⟨?_, ?_, ?_⟩ <;> decide

/-- C8: link extraction returns exactly, in row order, the targets of the
qualifying listing rows — those with at least two cells whose second
cell's first anchor carries a non-empty target; all other rows contribute
nothing.  The concrete document mixes every non-qualifying shape. -/
theorem claim_C8_link_extraction :
    (∀ soup : Doc, extract_deck_links soup = (selectHover soup).filterMap rowLinkTarget) ∧
    extract_deck_links docMixed = ["a1", "g2"] := by
  constructor
  · intro soup
    unfold extract_deck_links
    rw [foldl_extractStep]
    simp
  · decide

/-- C9: the export resolver is a total function that prefixes a slash when
the link lacks one, inserts the fixed `/mtgo` segment, and returns an
absolute URL rooted at the configured base origin. -/
theorem claim_C9_export_resolver :
    ∀ link : String,
      mtgo_export_url link =
          BASE_URL ++ ("/mtgo" ++ (if startsSlash link then link else "/" ++ link)) ∧
        ∃ rest : String, mtgo_export_url link = BASE_URL ++ rest ∧ startsSlash rest = true := by
  intro link
  have hmain : mtgo_export_url link =
      BASE_URL ++ ("/mtgo" ++ (if startsSlash link then link else "/" ++ link)) := by
    unfold mtgo_export_url urljoinBase
    dsimp only
    rw [startsSlash_mtgo]
    simp
  exact ⟨hmain, "/mtgo" ++ (if startsSlash link then link else "/" ++ link), hmain,
    startsSlash_mtgo _⟩

/-- C10: the resolver is not idempotent: applying it to its own output
inserts the `/mtgo` segment a second time, giving a different URL. -/
theorem claim_C10_resolver_not_idempotent :
    mtgo_export_url (mtgo_export_url "event?e=1&d=5") ≠ mtgo_export_url "event?e=1&d=5" := by
  decide

end MtgScraper
